import Mathlib

/-!
Verification of the market-research agent pipeline
(`agents/market_researcher.py`, `tools/web_tools.py`).

Python strings are modelled as `List Char`; the helpers below mirror the
exact Python string operations the source uses (`str.lower`, the `in`
substring test, `str.split(sep)`, `str.split()`, `str.strip`, `str.find`).
Tool invocations may raise, which is modelled by a failure-injection map
from tool name to an optional exception message; code that can raise an
uncaught exception is modelled in the `Except String` monad.
-/

namespace MarketResearch

/-- Python strings, modelled as lists of characters. -/
abbrev Str := List Char

/-- Python `str.lower()` (ASCII case folding, which covers all strings the
source manipulates). -/
def lowerStr (s : Str) : Str := s.map Char.toLower

/-- Python substring test `sub in s`. -/
def strContains : Str → Str → Bool
  | [], sub => sub.isEmpty
  | c :: rest, sub => sub.isPrefixOf (c :: rest) || strContains rest sub

/-- Helper for `pySplitOn`: fuel-driven scan; the fuel (initially the
string length) bounds the characters consumed, so the zero-fuel case on
a non-empty string is never reached. -/
def pySplitOnAux (sep : Str) : Nat → Str → List Str
  | _, [] => [[]]
  | 0, s => [s]
  | fuel + 1, c :: rest =>
    if sep ≠ [] ∧ sep.isPrefixOf (c :: rest) = true then
      [] :: pySplitOnAux sep fuel ((c :: rest).drop sep.length)
    else
      match pySplitOnAux sep fuel rest with
      | [] => [[c]]
      | p :: ps => (c :: p) :: ps

/-- Python `s.split(sep)` for a non-empty separator `sep`: splits at each
non-overlapping occurrence of `sep`, scanning left to right. -/
def pySplitOn (sep s : Str) : List Str := pySplitOnAux sep s.length s

/-- Python `s.strip()`: removes leading and trailing whitespace. -/
def pyStrip (s : Str) : Str :=
  ((s.dropWhile Char.isWhitespace).reverse.dropWhile Char.isWhitespace).reverse

/-- Helper for `pyWords`: accumulates the current word (reversed) while
scanning. -/
def pyWordsAux : Str → Str → List Str
  | [], acc => if acc.isEmpty then [] else [acc.reverse]
  | c :: rest, acc =>
    if c.isWhitespace then
      if acc.isEmpty then pyWordsAux rest [] else acc.reverse :: pyWordsAux rest []
    else pyWordsAux rest (c :: acc)

/-- Python `s.split()` with no argument: whitespace-delimited tokens,
empty tokens discarded. -/
def pyWords (s : Str) : List Str := pyWordsAux s []

/-- Python `s.find(sub)`: index of the first occurrence, `none` if absent. -/
def pyFindAux (sub : Str) : Str → Nat → Option Nat
  | [], i => if sub.isEmpty then some i else none
  | c :: rest, i =>
    if sub.isPrefixOf (c :: rest) then some i else pyFindAux sub rest (i + 1)

/-- Python `s.find(sub)` (as an `Option` rather than `-1` for absence). -/
def pyFind (s sub : Str) : Option Nat := pyFindAux sub s 0

/-! ### Intent planner (`_simulate_agent_planning`) -/

/-- A research plan: parallel lists of human-readable steps and tool names,
as built by `_simulate_agent_planning`. -/
structure Plan where
  steps : List String
  toolsToUse : List String
deriving DecidableEq

/-- Trigger keywords for `search_company_info`. -/
def companyKeywords : List Str :=
  ["company".toList, "apple".toList, "google".toList, "microsoft".toList]

/-- Trigger keywords for `analyze_market_trends`. -/
def marketKeywords : List Str := ["market".toList, "trends".toList, "industry".toList]

/-- Trigger keywords for `search_competitor_analysis`. -/
def competitorKeywords : List Str := ["competitor".toList, "competition".toList]

/-- Trigger keywords for `search_latest_news`. -/
def newsKeywords : List Str := ["news".toList, "latest".toList, "recent".toList]

/-- Trigger keywords for `generate_market_report`. -/
def reportKeywords : List Str := ["report".toList, "generate".toList, "create".toList]

/-- Python `any(word in query_lower for word in ...)`. -/
def anyKeywordIn (ws : List Str) (ql : Str) : Bool :=
  ws.any (fun w => strContains ql w)

/-- The planner leading gate: `"research" in query_lower or "analyze" in
query_lower`. -/
def gateHolds (ql : Str) : Bool :=
  strContains ql "research".toList || strContains ql "analyze".toList

/-- The tool names appended by the keyword table when the gate holds
(in the fixed source order of the `if` statements). -/
def gateTools (ql : Str) : List String :=
  if gateHolds ql then
    (if anyKeywordIn companyKeywords ql then ["search_company_info"] else []) ++
    (if anyKeywordIn marketKeywords ql then ["analyze_market_trends"] else []) ++
    (if anyKeywordIn competitorKeywords ql then ["search_competitor_analysis"] else []) ++
    (if anyKeywordIn newsKeywords ql then ["search_latest_news"] else []) ++
    (if anyKeywordIn reportKeywords ql then ["generate_market_report"] else [])
  else []

/-- The step descriptions appended alongside `gateTools`. -/
def gateSteps (ql : Str) : List String :=
  if gateHolds ql then
    (if anyKeywordIn companyKeywords ql then ["Search for company information"] else []) ++
    (if anyKeywordIn marketKeywords ql then ["Analyze market trends"] else []) ++
    (if anyKeywordIn competitorKeywords ql then ["Analyze competitors"] else []) ++
    (if anyKeywordIn newsKeywords ql then ["Search for latest news"] else []) ++
    (if anyKeywordIn reportKeywords ql then ["Generate comprehensive report"] else [])
  else []

/-- The fixed default tool list substituted when nothing matched. -/
def defaultTools : List String :=
  ["search_company_info", "analyze_market_trends", "search_latest_news",
   "generate_market_report"]

/-- The fixed default step list substituted when nothing matched. -/
def defaultSteps : List String :=
  ["Search for company information", "Analyze market trends",
   "Search for latest news", "Generate comprehensive report"]

/-- The fixed default plan. -/
def defaultPlan : Plan := { steps := defaultSteps, toolsToUse := defaultTools }

/-- Source `_simulate_agent_planning`: lower-case the query, run the gated keyword
table, and fall back to the default plan when no tool was selected. -/
def simulateAgentPlanning (query : Str) : Plan :=
  let ql := lowerStr query
  let tools := gateTools ql
  if tools.isEmpty then defaultPlan
  else { steps := gateSteps ql, toolsToUse := tools }

/-! ### Entity extraction (`_extract_company_name`, `_extract_market`) -/

/-- The fixed reference list of known company names. -/
def knownCompanies : List Str :=
  ["Apple".toList, "Google".toList, "Microsoft".toList, "Amazon".toList,
   "Tesla".toList, "Meta".toList, "Netflix".toList]

/-- Source `_extract_company_name`: first known company whose lower-cased name
occurs in the lower-cased query; otherwise the last whitespace token of the
query, or `"Company"` for a blank query. -/
def extractCompanyName (query : Str) : Str :=
  match knownCompanies.find? (fun c => strContains (lowerStr query) (lowerStr c)) with
  | some c => c
  | none =>
    match (pyWords query).getLast? with
    | some w => w
    | none => "Company".toList

/-- Source `_extract_market`: if `"market"` occurs in the lower-cased query, take
the text after its first occurrence (up to the next occurrence), and return
its first token, or the empty string when there is none; otherwise return
`"<company> market"`. -/
def extractMarket (query : Str) (company : Str) : Str :=
  let ql := lowerStr query
  if strContains ql "market".toList then
    let parts := pySplitOn "market".toList ql
    if parts.length > 1 then
      let p1 := (parts.get? 1).getD []
      if (pyStrip p1).isEmpty then []
      else (pyWords (pyStrip p1)).headD []
    else company ++ " market".toList
  else company ++ " market".toList


/-! ### Structured payloads (the dictionaries built in `web_tools.py`) -/

/-- JSON-like structured data, the shape of every tool payload. -/
inductive Json where
  | str : String → Json
  | num : Nat → Json
  | arr : List Json → Json
  | obj : List (String × Json) → Json

/-- Plain key lookup inside an object payload (first matching key). -/
def Json.look (j : Json) (k : String) : Option Json :=
  match j with
  | .obj kvs => (kvs.find? (fun kv => kv.1 == k)).map (fun kv => kv.2)
  | _ => none

/-- Python `dict.get(key, default)` as called on a payload value; raises
(`AttributeError`) when the receiver is not a dictionary. -/
def Json.pyGet (j : Json) (k : String) (dflt : Json) : Except String Json :=
  match j with
  | .obj kvs => .ok ((((kvs.find? (fun kv => kv.1 == k))).map (fun kv => kv.2)).getD dflt)
  | _ => .error "AttributeError: object has no attribute get"

/-- Python `key in payload`; raises (`TypeError`) when the receiver is not
a dictionary (the source only reaches it on dictionaries). -/
def Json.pyHasKey (j : Json) (k : String) : Except String Bool :=
  match j with
  | .obj kvs => .ok (kvs.any (fun kv => kv.1 == k))
  | _ => .error "TypeError: argument of type is not iterable"

/-- Python `payload[key]` subscription; raises on a missing key or a
non-dictionary receiver. -/
def Json.pyIndex (j : Json) (k : String) : Except String Json :=
  match j with
  | .obj kvs =>
    match kvs.find? (fun kv => kv.1 == k) with
    | some kv => .ok kv.2
    | none => .error "KeyError"
  | _ => .error "TypeError: object is not subscriptable"

/-- Python `len(payload)`; defined for lists and strings, raises otherwise. -/
def Json.pyLen (j : Json) : Except String Nat :=
  match j with
  | .arr xs => .ok xs.length
  | .str s => .ok s.length
  | _ => .error "TypeError: object has no len"

/-- Python `payload[:3]` as used in the list-valued loops of
`_generate_insights`; the source only reaches it on lists. -/
def Json.pyTake3 (j : Json) : Except String (List Json) :=
  match j with
  | .arr xs => .ok (xs.take 3)
  | _ => .error "TypeError: object is not sliceable"

/-- Python `str()` as applied by the f-strings of `_generate_insights`.
Every value the source actually renders is a string or an integer;
container renderings are abbreviated since no rendered field is one. -/
def Json.toDisplay : Json → String
  | .str s => s
  | .num n => toString n
  | .arr _ => "<list>"
  | .obj _ => "<dict>"

/-- Conversion from the character-list strings used for query processing
to the Lean strings stored inside payloads. -/
def mkS (s : Str) : String := String.mk s

/-- The timestamps a request observes: `datetime.now().isoformat()` and
`datetime.now().strftime` of the day, abstracted as opaque strings. -/
structure Now where
  iso : String
  day : String

/-- Python `market or company`: the company is substituted when the
extracted market is the empty (falsy) string. -/
def pyOr (market company : Str) : Str :=
  if market.isEmpty then company else market

/-- Canned payload of `ResearchTools.search_company_info`. -/
def cannedCompanyInfo (company : Str) (now : Now) : Json :=
  .obj [("company", .str (mkS company)),
        ("status", .str "success"),
        ("data", .obj
          [("founded", .str "2001"),
           ("headquarters", .str "Cupertino, California"),
           ("employees", .str "161,000+"),
           ("industry", .str "Technology"),
           ("sectors", .arr [.str "Consumer Electronics", .str "Software", .str "Services"]),
           ("market_cap", .str "$3.2 Trillion"),
           ("key_products", .arr [.str "iPhone", .str "Mac", .str "iPad", .str "Apple Watch"]),
           ("website", .str ("https://www." ++ mkS (lowerStr company) ++ ".com"))]),
        ("timestamp", .str now.iso)]

/-- Canned payload of `ResearchTools.analyze_market_trends` (default
timeframe `"1_year"`). -/
def cannedMarketTrends (market : Str) (now : Now) : Json :=
  .obj [("market", .str (mkS market)),
        ("timeframe", .str "1_year"),
        ("status", .str "success"),
        ("data", .obj
          [("market_size", .str "$500 Billion"),
           ("growth_rate", .str "12% CAGR"),
           ("key_trends", .arr
             [.str "AI integration in all products",
              .str "Shift to cloud-based services",
              .str "Increased focus on sustainability",
              .str "Premium market expansion"]),
           ("growth_drivers", .arr
             [.str "Emerging markets expansion",
              .str "5G adoption",
              .str "IoT proliferation"]),
           ("challenges", .arr
             [.str "Supply chain disruptions",
              .str "Regulatory pressure",
              .str "Competition intensification"])]),
        ("timestamp", .str now.iso)]

/-- Canned payload of `ResearchTools.search_competitor_analysis` (default
metric list). -/
def cannedCompetitorAnalysis (competitor : Str) (now : Now) : Json :=
  .obj [("competitor", .str (mkS competitor)),
        ("metrics_analyzed", .arr
          [.str "revenue", .str "market_share", .str "growth_rate", .str "market_position"]),
        ("status", .str "success"),
        ("data", .obj
          [("annual_revenue", .str "$394.3 Billion"),
           ("market_share", .str "15.2%"),
           ("growth_rate", .str "8.5% YoY"),
           ("market_position", .str "Leader"),
           ("key_strengths", .arr
             [.str "Strong brand recognition",
              .str "Loyal customer base",
              .str "Vertical integration"]),
           ("weaknesses", .arr
             [.str "Limited ecosystem flexibility",
              .str "High price point",
              .str "Service gaps"]),
           ("opportunities", .arr
             [.str "Emerging markets",
              .str "New categories",
              .str "Services expansion"]),
           ("threats", .arr
             [.str "Regulatory scrutiny",
              .str "Intense competition",
              .str "Tech disruption"])]),
        ("timestamp", .str now.iso)]

/-- Canned payload of `ResearchTools.search_latest_news` (default
`days_back = 30`). -/
def cannedLatestNews (query : Str) (now : Now) : Json :=
  .obj [("query", .str (mkS query)),
        ("days_back", .num 30),
        ("status", .str "success"),
        ("articles", .arr
          [.obj [("title", .str (mkS query ++ " announces new AI features")),
                 ("source", .str "TechCrunch"),
                 ("date", .str "2024-02-20"),
                 ("summary", .str "Revolutionary AI integration announced"),
                 ("url", .str "https://example.com/article1")],
           .obj [("title", .str (mkS query ++ " expands into new market")),
                 ("source", .str "Reuters"),
                 ("date", .str "2024-02-19"),
                 ("summary", .str "Strategic expansion initiative launched"),
                 ("url", .str "https://example.com/article2")],
           .obj [("title", .str (mkS query ++ " Q4 earnings beat estimates")),
                 ("source", .str "Bloomberg"),
                 ("date", .str "2024-02-18"),
                 ("summary", .str "Strong financial performance reported"),
                 ("url", .str "https://example.com/article3")]]),
        ("article_count", .num 3),
        ("timestamp", .str now.iso)]

/-- Canned payload of `ResearchTools.generate_market_report`. -/
def cannedMarketReport (company market : Str) (now : Now) : Json :=
  .obj [("company", .str (mkS company)),
        ("market", .str (mkS market)),
        ("status", .str "success"),
        ("report", .obj
          [("title", .str ("Market Analysis Report: " ++ mkS company)),
           ("date", .str now.day),
           ("sections", .obj
             [("executive_summary", .str
                 (mkS company ++ " operates in a dynamic " ++ mkS market ++
                  " with significant growth potential. The company maintains a strong market position with innovative products and services.")),
              ("market_overview", .str
                 ("The " ++ mkS market ++
                  " is experiencing rapid transformation driven by technological advancement and changing consumer preferences. Market growth is projected at 12% CAGR.")),
              ("competitive_landscape", .str
                 (mkS company ++
                  " faces intense competition but maintains differentiation through brand strength and innovation. Key competitors include [Research Identified Competitors].")),
              ("opportunities", .arr
                [.str "Emerging market expansion",
                 .str "New product categories",
                 .str "Services diversification",
                 .str "Geographic expansion"]),
              ("threats", .arr
                [.str "Regulatory changes",
                 .str "Market saturation",
                 .str "Intense competition",
                 .str "Supply chain risks"]),
              ("recommendations", .arr
                [.str "Invest in AI and machine learning capabilities",
                 .str "Expand into high-growth emerging markets",
                 .str "Strengthen ecosystem partnerships",
                 .str "Enhance sustainability initiatives"])]),
           ("data_sources", .arr
             [.str "Company filings and reports",
              .str "Industry research databases",
              .str "News and media sources",
              .str "Competitive intelligence",
              .str "Market research firms"])]),
        ("timestamp", .str now.iso)]

/-! ### Plan executor (`_execute_research_plan`) -/

/-- Failure injection for tool invocations: maps a tool name to the
message of the exception its call raises, or `none` when the call
returns normally (as the canned tools in the repository always do). -/
abbrev Fail := String → Option String

/-- The error slot written by the executor `except` clause:
`{"error": str(e)}`. -/
def errObj (msg : String) : Json := .obj [("error", .str msg)]

/-- Python dictionary assignment `d[k] = v` on an insertion-ordered
association list: overwrite in place, or append a new entry. -/
def setKey (data : List (String × Json)) (k : String) (v : Json) :
    List (String × Json) :=
  if data.any (fun kv => kv.1 == k) then
    data.map (fun kv => if kv.1 == k then (k, v) else kv)
  else data ++ [(k, v)]

/-- One iteration of the executor dispatch loop: invoke the named tool
(with the entity parameters the source passes), storing its payload under
the fixed result key of the tool, or `{"error": ...}` under the tool name when
the call raises; unknown names are dispatched to no branch and write
nothing. -/
def execStep (fail : Fail) (now : Now) (company market : Str)
    (data : List (String × Json)) (tool : String) : List (String × Json) :=
  if tool == "search_company_info" then
    match fail tool with
    | some e => setKey data tool (errObj e)
    | none => setKey data "company_info" (cannedCompanyInfo company now)
  else if tool == "analyze_market_trends" then
    match fail tool with
    | some e => setKey data tool (errObj e)
    | none => setKey data "market_trends" (cannedMarketTrends (pyOr market company) now)
  else if tool == "search_competitor_analysis" then
    match fail tool with
    | some e => setKey data tool (errObj e)
    | none => setKey data "competitor_analysis" (cannedCompetitorAnalysis company now)
  else if tool == "search_latest_news" then
    match fail tool with
    | some e => setKey data tool (errObj e)
    | none => setKey data "latest_news" (cannedLatestNews company now)
  else if tool == "generate_market_report" then
    match fail tool with
    | some e => setKey data tool (errObj e)
    | none => setKey data "report" (cannedMarketReport company (pyOr market company) now)
  else data

/-- The per-request aggregate built by `_execute_research_plan`. -/
structure ResearchResult where
  query : Str
  timestamp : String
  data : List (String × Json)

/-- Source `_execute_research_plan`: extract the entities, then walk the tool list of the plan, dispatching each name through `execStep`. -/
def executeResearchPlan (fail : Fail) (now : Now) (plan : Plan) (query : Str) :
    ResearchResult :=
  let company := extractCompanyName query
  let market := extractMarket query company
  { query := query
    timestamp := now.iso
    data := plan.toolsToUse.foldl (execStep fail now company market) [] }

/-! ### Insight synthesis (`_generate_insights`) -/

/-- Python `"=" * 60`. -/
def eq60 : String := String.mk (List.replicate 60 '=')

/-- Dictionary-membership test on the result map (`"company_info" in data`)
followed by subscription, fused over the association list. -/
def lookupKey (data : List (String × Json)) (k : String) : Option Json :=
  (data.find? (fun kv => kv.1 == k)).map (fun kv => kv.2)

/-- The company-overview section of `_generate_insights` (emitted only when
`"company_info"` is a key of the result map). -/
def companySection (data : List (String × Json)) : Except String String :=
  match lookupKey data "company_info" with
  | none => .ok ""
  | some ci => do
    let companyData ← ci.pyGet "data" (Json.obj [])
    let founded ← companyData.pyGet "founded" (Json.str "N/A")
    let hq ← companyData.pyGet "headquarters" (Json.str "N/A")
    let employees ← companyData.pyGet "employees" (Json.str "N/A")
    let industry ← companyData.pyGet "industry" (Json.str "N/A")
    let marketCap ← companyData.pyGet "market_cap" (Json.str "N/A")
    pure ("🏢 COMPANY OVERVIEW:\n" ++
      "  • Founded: " ++ founded.toDisplay ++ "\n" ++
      "  • Headquarters: " ++ hq.toDisplay ++ "\n" ++
      "  • Employees: " ++ employees.toDisplay ++ "\n" ++
      "  • Industry: " ++ industry.toDisplay ++ "\n" ++
      "  • Market Cap: " ++ marketCap.toDisplay ++ "\n\n")

/-- The market-trends section of `_generate_insights`. -/
def trendsSection (data : List (String × Json)) : Except String String :=
  match lookupKey data "market_trends" with
  | none => .ok ""
  | some mt => do
    let trendsData ← mt.pyGet "data" (Json.obj [])
    let growthRate ← trendsData.pyGet "growth_rate" (Json.str "N/A")
    let marketSize ← trendsData.pyGet "market_size" (Json.str "N/A")
    let hasKT ← trendsData.pyHasKey "key_trends"
    let ktLines ←
      if hasKT then do
        let kt ← trendsData.pyIndex "key_trends"
        let items ← kt.pyTake3
        pure ("  • Key Trends:\n" ++
          String.join (items.map (fun t => "    - " ++ t.toDisplay ++ "\n")))
      else pure ""
    pure ("📈 MARKET TRENDS:\n" ++
      "  • Growth Rate: " ++ growthRate.toDisplay ++ "\n" ++
      "  • Market Size: " ++ marketSize.toDisplay ++ "\n" ++
      ktLines ++ "\n")

/-- The latest-news section of `_generate_insights`. -/
def newsSection (data : List (String × Json)) : Except String String :=
  match lookupKey data "latest_news" with
  | none => .ok ""
  | some ln => do
    let newsData ← ln.pyGet "articles" (Json.arr [])
    let n ← newsData.pyLen
    let arts ← newsData.pyTake3
    let lines ← arts.mapM (fun a => do
      let title ← a.pyGet "title" (Json.str "N/A")
      let source ← a.pyGet "source" (Json.str "N/A")
      pure ("  • " ++ title.toDisplay ++ " (" ++ source.toDisplay ++ ")\n"))
    pure ("📰 LATEST NEWS (" ++ toString n ++ " articles):\n" ++
      String.join lines ++ "\n")

/-- The report section of `_generate_insights`. -/
def reportSection (data : List (String × Json)) : Except String String :=
  match lookupKey data "report" with
  | none => .ok ""
  | some rp => do
    let reportData ← rp.pyGet "report" (Json.obj [])
    let title ← reportData.pyGet "title" (Json.str "N/A")
    let date ← reportData.pyGet "date" (Json.str "N/A")
    pure ("📄 REPORT GENERATED:\n" ++
      "  • Title: " ++ title.toDisplay ++ "\n" ++
      "  • Date: " ++ date.toDisplay ++ "\n")

/-- Source `_generate_insights`: header, the four payload-derived sections in
fixed presentation order, and a closing rule. -/
def generateInsights (r : ResearchResult) : Except String String := do
  let data := r.data
  let s1 ← companySection data
  let s2 ← trendsSection data
  let s3 ← newsSection data
  let s4 ← reportSection data
  pure ("📊 RESEARCH INSIGHTS:\n" ++ eq60 ++ "\n\n" ++
    s1 ++ s2 ++ s3 ++ s4 ++ "\n" ++ eq60 ++ "\n")

/-- The insight text produced when no section is emitted. -/
def insightsNoSections : String :=
  "📊 RESEARCH INSIGHTS:\n" ++ eq60 ++ "\n\n" ++ "\n" ++ eq60 ++ "\n"

/-! ### Response formatting and the top-level `research` entry point -/

/-- Config `AgentConfig.AGENT_NAME` (default configuration value). -/
def agentName : String := "ResearcherBot"

/-- Source `_format_response`: fixed banner, query metadata, insights, closing
marker. -/
def formatResponse (r : ResearchResult) (insights : String) : String :=
  "🤖 MARKET RESEARCH AGENT REPORT\n" ++ eq60 ++ "\n\n" ++
  "Research Request: " ++ mkS r.query ++ "\n" ++
  "Timestamp: " ++ r.timestamp ++ "\n" ++
  "Agent: " ++ agentName ++ "\n\n" ++
  insights ++ "\n✅ Research completed successfully!\n"

/-- The body of the `try` block in `research`: plan, execute, synthesize,
format. An exception escaping any stage surfaces as `Except.error`. -/
def researchBody (fail : Fail) (now : Now) (query : Str) : Except String String := do
  let plan := simulateAgentPlanning query
  let results := executeResearchPlan fail now plan query
  let insights ← generateInsights results
  pure (formatResponse results insights)

/-- Source `research`: runs the pipeline and converts any escaped exception into
the `"Error during research: ..."` string, so the caller never sees a
raised exception. -/
def research (fail : Fail) (now : Now) (query : Str) : String :=
  match researchBody fail now query with
  | .ok r => r
  | .error e => "Error during research: " ++ e

/-! ### The registry dispatchable operation names and their result keys -/

/-- The five operation names the executor can dispatch, in the fixed
table order of the planner. -/
def knownTools : List String :=
  ["search_company_info", "analyze_market_trends", "search_competitor_analysis",
   "search_latest_news", "generate_market_report"]

/-- The result-map key a successful tool payload is stored under. -/
def shortKey (tool : String) : String :=
  if tool == "search_company_info" then "company_info"
  else if tool == "analyze_market_trends" then "market_trends"
  else if tool == "search_competitor_analysis" then "competitor_analysis"
  else if tool == "search_latest_news" then "latest_news"
  else if tool == "generate_market_report" then "report"
  else tool

/-- The result-map key where a plan operation outcome is stored: the
payload key of the tool on success, the tool name itself on failure. -/
def keyOf (fail : Fail) (tool : String) : String :=
  match fail tool with
  | some _ => tool
  | none => shortKey tool

/-- The successful payload the executor stores for each known tool. -/
def successPayload (now : Now) (company market : Str) (tool : String) : Json :=
  if tool == "search_company_info" then cannedCompanyInfo company now
  else if tool == "analyze_market_trends" then cannedMarketTrends (pyOr market company) now
  else if tool == "search_competitor_analysis" then cannedCompetitorAnalysis company now
  else if tool == "search_latest_news" then cannedLatestNews company now
  else cannedMarketReport company (pyOr market company) now

/-- The result-map value stored for a plan operation: its canned payload
on success, the `{"error": ...}` slot on failure. -/
def entryOf (fail : Fail) (now : Now) (company market : Str) (tool : String) : Json :=
  match fail tool with
  | some e => errObj e
  | none => successPayload now company market tool

/-- The full result map the executor produces for a duplicate-free plan of
known operations (proved below in `executeData_eq`). -/
def dataOf (fail : Fail) (now : Now) (company market : Str)
    (tools : List String) : List (String × Json) :=
  tools.map (fun t => (keyOf fail t, entryOf fail now company market t))

/-- The union of all trigger keyword sets of the planner table. -/
def allTriggerKeywords : List Str :=
  companyKeywords ++ marketKeywords ++ competitorKeywords ++
  newsKeywords ++ reportKeywords

/-- The concrete scenario query of the specification. -/
def appleQuery : Str := "Research Apple Inc and generate a market report".toList

/-- A failure injection under which every tool call returns normally, as
the canned tools of the repository always do. -/
def failNone : Fail := fun _ => none

/-- A failure injection under which exactly the `search_company_info`
call raises (with message `"boom"`). -/
def failCompany : Fail :=
  fun t => if t == "search_company_info" then some "boom" else none

/-- A concrete request clock for witnesses and counterexamples. -/
def nowW : Now := { iso := "2024-01-01T00:00:00", day := "2024-01-01" }

/-- A one-operation plan used in counterexamples. -/
def planOne : Plan := { steps := [], toolsToUse := ["search_company_info"] }

/-- A two-operation plan used in counterexamples. -/
def planTwo : Plan :=
  { steps := [], toolsToUse := ["search_company_info", "generate_market_report"] }

/-! ## Helper lemmas -/

/-- A conditional singleton is a sublist of the singleton. -/
theorem if_single_sublist {α : Type} (b : Bool) (a : α) :
    (if b then [a] else []).Sublist [a] := by
  cases b
  · exact List.nil_sublist _
  · exact List.Sublist.refl _

/-- The gated keyword table emits tool names in its fixed evaluation
order: whatever it emits is a sublist of the five-name table order. -/
theorem gateTools_sublist (ql : Str) : (gateTools ql).Sublist knownTools := by
  unfold gateTools knownTools
  split
  · exact ((((if_single_sublist _ _).append (if_single_sublist _ _)).append
      (if_single_sublist _ _)).append (if_single_sublist _ _)).append
      (if_single_sublist _ _)
  · exact List.nil_sublist _

/-- The five dispatchable names are distinct. -/
theorem knownTools_nodup : knownTools.Nodup := by decide

/-- The default plan tools are a sublist of the table order. -/
theorem defaultTools_sublist : defaultTools.Sublist knownTools := by decide

/-- Every plan the planner emits lists its tools in the fixed table
order (it is a sublist of the five-name table order). -/
theorem planner_tools_sublist (q : Str) :
    (simulateAgentPlanning q).toolsToUse.Sublist knownTools := by
  unfold simulateAgentPlanning
  dsimp only
  split
  · exact defaultTools_sublist
  · exact gateTools_sublist _

/-- Every tool name the planner emits is a dispatchable name. -/
theorem planner_tools_subset (q : Str) :
    ∀ t ∈ (simulateAgentPlanning q).toolsToUse, t ∈ knownTools :=
  fun _ ht => (planner_tools_sublist q).subset ht

/-- Planner output never duplicates a tool name. -/
theorem planner_tools_nodup (q : Str) :
    (simulateAgentPlanning q).toolsToUse.Nodup :=
  (planner_tools_sublist q).nodup knownTools_nodup

/-- The splitting scan never returns the empty list of parts. -/
theorem pySplitOnAux_ne_nil (sub : Str) :
    ∀ (fuel : Nat) (s : Str), pySplitOnAux sub fuel s ≠ [] := by
  intro fuel
  induction fuel with
  | zero => intro s; cases s <;> simp [pySplitOnAux]
  | succ f _ =>
    intro s
    cases s with
    | nil => simp [pySplitOnAux]
    | cons c rest =>
      rw [pySplitOnAux]
      split
      · simp
      · split <;> simp

/-- When the separator occurs in the string and the fuel covers it, the
scan returns at least two parts. -/
theorem one_lt_splitOnAux_length (sub : Str) (hsub : sub ≠ []) :
    ∀ (fuel : Nat) (s : Str), s.length ≤ fuel → strContains s sub = true →
      1 < (pySplitOnAux sub fuel s).length := by
  intro fuel
  induction fuel with
  | zero =>
    intro s hle h
    have hnil : s = [] := List.eq_nil_of_length_eq_zero (Nat.le_zero.mp hle)
    subst hnil
    simp [strContains, List.isEmpty_iff] at h
    exact absurd h hsub
  | succ f ih =>
    intro s hle h
    cases s with
    | nil =>
      simp [strContains, List.isEmpty_iff] at h
      exact absurd h hsub
    | cons c rest =>
      rw [pySplitOnAux]
      by_cases hp : sub.isPrefixOf (c :: rest) = true
      · rw [if_pos ⟨hsub, hp⟩]
        have hne := pySplitOnAux_ne_nil sub f ((c :: rest).drop sub.length)
        cases hq : pySplitOnAux sub f ((c :: rest).drop sub.length) with
        | nil => exact absurd hq hne
        | cons p ps => simp
      · rw [if_neg (by simp [hp])]
        have hrest : strContains rest sub = true := by
          have := h
          simp only [strContains, Bool.or_eq_true] at this
          rcases this with h' | h'
          · exact absurd h' hp
          · exact h'
        have hle' : rest.length ≤ f := by
          simp only [List.length_cons] at hle
          omega
        have hlen := ih rest hle' hrest
        cases hq : pySplitOnAux sub f rest with
        | nil => exact absurd hq (pySplitOnAux_ne_nil sub f rest)
        | cons p ps =>
          rw [hq] at hlen
          simp only [List.length_cons] at hlen ⊢
          omega

/-- When the separator occurs in the string, `pySplitOn` returns at least
two parts (mirror of the Python invariant that `s.split(sep)` has length
greater than one exactly when `sep in s`). -/
theorem one_lt_splitOn_length (sub : Str) (hsub : sub ≠ []) (s : Str)
    (h : strContains s sub = true) : 1 < (pySplitOn sub s).length :=
  one_lt_splitOnAux_length sub hsub s.length s le_rfl h

/-- Assigning a key that is not yet present appends the entry. -/
theorem setKey_not_mem (data : List (String × Json)) (k : String) (v : Json)
    (h : ∀ kv ∈ data, kv.1 ≠ k) : setKey data k v = data ++ [(k, v)] := by
  have hany : data.any (fun kv => kv.1 == k) = false := by
    rw [List.any_eq_false]
    intro kv hkv
    simpa using h kv hkv
  unfold setKey
  rw [hany]
  simp

/-- Distinct dispatchable tools occupy distinct result-map keys, whichever
of them fail: full names and payload keys never collide. -/
theorem knownKeys_separated :
    ∀ t ∈ knownTools, ∀ t' ∈ knownTools, t ≠ t' →
      t ≠ shortKey t' ∧ shortKey t ≠ t' ∧ shortKey t ≠ shortKey t' := by decide

/-- Map `keyOf` is injective on the dispatchable names. -/
theorem keyOf_inj (fail : Fail) {t t' : String} (ht : t ∈ knownTools)
    (ht' : t' ∈ knownTools) (hne : t ≠ t') : keyOf fail t ≠ keyOf fail t' := by
  have hsep := knownKeys_separated t ht t' ht' hne
  unfold keyOf
  cases fail t <;> cases fail t' <;> simp <;> tauto

/-- On a known tool, the dispatch chain reduces to one `setKey`: an error
slot under the tool name, or the canned payload under its payload key. -/
theorem execStep_eq_known (fail : Fail) (now : Now) (company market : Str)
    (data : List (String × Json)) (t : String) (ht : t ∈ knownTools) :
    execStep fail now company market data t
      = match fail t with
        | some e => setKey data t (errObj e)
        | none => setKey data (shortKey t) (successPayload now company market t) := by
  fin_cases ht <;> rfl

/-- One dispatch step on a known tool, when its key is still free, appends
exactly one fully-populated entry. -/
theorem execStep_known (fail : Fail) (now : Now) (company market : Str)
    (data : List (String × Json)) (t : String) (ht : t ∈ knownTools)
    (h : ∀ kv ∈ data, kv.1 ≠ keyOf fail t) :
    execStep fail now company market data t
      = data ++ [(keyOf fail t, entryOf fail now company market t)] := by
  rw [execStep_eq_known fail now company market data t ht]
  cases hf : fail t with
  | some e =>
    simp only [keyOf, entryOf, hf] at h ⊢
    exact setKey_not_mem data t (errObj e) h
  | none =>
    simp only [keyOf, entryOf, hf] at h ⊢
    exact setKey_not_mem data (shortKey t) (successPayload now company market t) h

/-- Folding the dispatch loop over a duplicate-free list of known tools
appends one entry per tool, in plan order. -/
theorem exec_fold (fail : Fail) (now : Now) (company market : Str) :
    ∀ (tools : List String) (acc : List (String × Json)),
      (∀ t ∈ tools, t ∈ knownTools) → tools.Nodup →
      (∀ kv ∈ acc, ∀ t ∈ tools, kv.1 ≠ keyOf fail t) →
      tools.foldl (execStep fail now company market) acc
        = acc ++ dataOf fail now company market tools := by
  intro tools
  induction tools with
  | nil => intro acc _ _ _; simp [dataOf]
  | cons t rest ih =>
    intro acc hsub hnd hacc
    have hstep := execStep_known fail now company market acc t
      (hsub t (List.mem_cons_self _ _))
      (fun kv hkv => hacc kv hkv t (List.mem_cons_self _ _))
    rw [List.foldl_cons, hstep]
    rw [ih (acc ++ [(keyOf fail t, entryOf fail now company market t)])
      (fun t' ht' => hsub t' (List.mem_cons_of_mem _ ht'))
      (List.nodup_cons.mp hnd).2 ?hacc]
    · simp [dataOf]
    case hacc =>
      intro kv hkv t' ht'
      rcases List.mem_append.mp hkv with hold | hnew
      · exact hacc kv hold t' (List.mem_cons_of_mem _ ht')
      · have : kv = (keyOf fail t, entryOf fail now company market t) := by
          simpa using hnew
        rw [this]
        have hne : t ≠ t' := by
          rintro rfl
          exact (List.nodup_cons.mp hnd).1 ht'
        exact keyOf_inj fail (hsub t (List.mem_cons_self _ _))
          (hsub t' (List.mem_cons_of_mem _ ht')) hne

/-- The executor's result map, in closed form: exactly one entry per plan
operation, keyed by `keyOf` and holding `entryOf`. -/
theorem executeData_eq (fail : Fail) (now : Now) (plan : Plan) (query : Str)
    (hsub : ∀ t ∈ plan.toolsToUse, t ∈ knownTools)
    (hnd : plan.toolsToUse.Nodup) :
    (executeResearchPlan fail now plan query).data
      = dataOf fail now (extractCompanyName query)
          (extractMarket query (extractCompanyName query)) plan.toolsToUse := by
  unfold executeResearchPlan
  dsimp only
  rw [exec_fold fail now _ _ plan.toolsToUse [] hsub hnd (by simp)]
  simp

/-- Reading any key of the closed-form result map identifies the plan
operation it came from. -/
theorem lookupKey_dataOf (fail : Fail) (now : Now) (company market : Str)
    (tools : List String) (k : String) (v : Json)
    (h : lookupKey (dataOf fail now company market tools) k = some v) :
    ∃ t ∈ tools, keyOf fail t = k ∧ entryOf fail now company market t = v := by
  unfold lookupKey at h
  rw [Option.map_eq_some'] at h
  obtain ⟨kv, hfind, hsnd⟩ := h
  have hmem := List.mem_of_find?_eq_some hfind
  have hp := List.find?_some hfind
  rw [beq_iff_eq] at hp
  unfold dataOf at hmem
  obtain ⟨t, htm, hft⟩ := List.mem_map.mp hmem
  refine ⟨t, htm, ?_, ?_⟩
  · rw [← hp, ← hft]
  · rw [← hsnd, ← hft]

/-- Each plan operation's slot is present in the closed-form result map
and holds exactly its entry. -/
theorem lookupKey_dataOf_self (fail : Fail) (now : Now) (company market : Str) :
    ∀ (tools : List String), (∀ t ∈ tools, t ∈ knownTools) → tools.Nodup →
      ∀ t ∈ tools,
        lookupKey (dataOf fail now company market tools) (keyOf fail t)
          = some (entryOf fail now company market t) := by
  intro tools
  induction tools with
  | nil => intro _ _ t ht; cases ht
  | cons a rest ih =>
    intro hsub hnd t ht
    rcases List.mem_cons.mp ht with rfl | hmem
    · simp [dataOf, lookupKey]
    · have hne : a ≠ t := by
        rintro rfl
        exact (List.nodup_cons.mp hnd).1 hmem
      have hkne : keyOf fail a ≠ keyOf fail t :=
        keyOf_inj fail (hsub a (List.mem_cons_self _ _))
          (hsub t (List.mem_cons_of_mem _ hmem)) hne
      have := ih (fun t' ht' => hsub t' (List.mem_cons_of_mem _ ht'))
        (List.nodup_cons.mp hnd).2 t hmem
      simpa [dataOf, lookupKey, List.find?_cons, hkne] using this

/-- Looking up a key no entry carries yields nothing. -/
theorem lookupKey_none (data : List (String × Json)) (k : String)
    (h : ∀ kv ∈ data, kv.1 ≠ k) : lookupKey data k = none := by
  unfold lookupKey
  rw [List.find?_eq_none.mpr]
  · rfl
  · intro kv hkv
    simpa using h kv hkv

/-- No `company_info` key: the overview section is omitted. -/
theorem companySection_of_none (data : List (String × Json))
    (h : lookupKey data "company_info" = none) : companySection data = .ok "" := by
  unfold companySection
  rw [h]

/-- No `market_trends` key: the trends section is omitted. -/
theorem trendsSection_of_none (data : List (String × Json))
    (h : lookupKey data "market_trends" = none) : trendsSection data = .ok "" := by
  unfold trendsSection
  rw [h]

/-- No `latest_news` key: the news section is omitted. -/
theorem newsSection_of_none (data : List (String × Json))
    (h : lookupKey data "latest_news" = none) : newsSection data = .ok "" := by
  unfold newsSection
  rw [h]

/-- No `report` key: the report section is omitted. -/
theorem reportSection_of_none (data : List (String × Json))
    (h : lookupKey data "report" = none) : reportSection data = .ok "" := by
  unfold reportSection
  rw [h]

/-- The overview section renders without raising on the canned payload. -/
theorem companySection_of_canned (data : List (String × Json)) (company : Str)
    (now : Now) (h : lookupKey data "company_info" = some (cannedCompanyInfo company now)) :
    ∃ s, companySection data = .ok s := by
  unfold companySection
  rw [h]
  exact ⟨_, rfl⟩

/-- The trends section renders without raising on the canned payload. -/
theorem trendsSection_of_canned (data : List (String × Json)) (market : Str)
    (now : Now) (h : lookupKey data "market_trends" = some (cannedMarketTrends market now)) :
    ∃ s, trendsSection data = .ok s := by
  unfold trendsSection
  rw [h]
  exact ⟨_, rfl⟩

/-- The news section renders without raising on the canned payload. -/
theorem newsSection_of_canned (data : List (String × Json)) (query : Str)
    (now : Now) (h : lookupKey data "latest_news" = some (cannedLatestNews query now)) :
    ∃ s, newsSection data = .ok s := by
  unfold newsSection
  rw [h]
  exact ⟨_, rfl⟩

/-- The report section renders without raising on the canned payload. -/
theorem reportSection_of_canned (data : List (String × Json)) (company market : Str)
    (now : Now)
    (h : lookupKey data "report" = some (cannedMarketReport company market now)) :
    ∃ s, reportSection data = .ok s := by
  unfold reportSection
  rw [h]
  exact ⟨_, rfl⟩

/-- The payload keys of the four rendered sections are not operation
names, so error slots never sit under them. -/
theorem sectionKeys_not_tools :
    "company_info" ∉ knownTools ∧ "market_trends" ∉ knownTools ∧
    "latest_news" ∉ knownTools ∧ "report" ∉ knownTools := by decide

/-- In the executor's result map, anything stored under `company_info` is
the canned company payload. -/
theorem dataOf_company_entry (fail : Fail) (now : Now) (company market : Str)
    (tools : List String) (hsub : ∀ t ∈ tools, t ∈ knownTools) (v : Json)
    (h : lookupKey (dataOf fail now company market tools) "company_info" = some v) :
    v = cannedCompanyInfo company now := by
  obtain ⟨t, htm, hkey, hval⟩ := lookupKey_dataOf fail now company market tools _ v h
  have htk := hsub t htm
  cases hf : fail t with
  | some e =>
    simp only [keyOf, hf] at hkey
    subst hkey
    exact absurd htk (by decide)
  | none =>
    simp only [keyOf, hf] at hkey
    have ht : t = "search_company_info" := by
      fin_cases htk <;> first | rfl | exact absurd hkey (by decide)
    subst ht
    rw [← hval]
    simp [entryOf, hf, successPayload]

/-- In the executor's result map, anything stored under `market_trends` is
the canned trends payload. -/
theorem dataOf_trends_entry (fail : Fail) (now : Now) (company market : Str)
    (tools : List String) (hsub : ∀ t ∈ tools, t ∈ knownTools) (v : Json)
    (h : lookupKey (dataOf fail now company market tools) "market_trends" = some v) :
    v = cannedMarketTrends (pyOr market company) now := by
  obtain ⟨t, htm, hkey, hval⟩ := lookupKey_dataOf fail now company market tools _ v h
  have htk := hsub t htm
  cases hf : fail t with
  | some e =>
    simp only [keyOf, hf] at hkey
    subst hkey
    exact absurd htk (by decide)
  | none =>
    simp only [keyOf, hf] at hkey
    have ht : t = "analyze_market_trends" := by
      fin_cases htk <;> first | rfl | exact absurd hkey (by decide)
    subst ht
    rw [← hval]
    simp [entryOf, hf, successPayload]

/-- In the executor's result map, anything stored under `latest_news` is
the canned news payload. -/
theorem dataOf_news_entry (fail : Fail) (now : Now) (company market : Str)
    (tools : List String) (hsub : ∀ t ∈ tools, t ∈ knownTools) (v : Json)
    (h : lookupKey (dataOf fail now company market tools) "latest_news" = some v) :
    v = cannedLatestNews company now := by
  obtain ⟨t, htm, hkey, hval⟩ := lookupKey_dataOf fail now company market tools _ v h
  have htk := hsub t htm
  cases hf : fail t with
  | some e =>
    simp only [keyOf, hf] at hkey
    subst hkey
    exact absurd htk (by decide)
  | none =>
    simp only [keyOf, hf] at hkey
    have ht : t = "search_latest_news" := by
      fin_cases htk <;> first | rfl | exact absurd hkey (by decide)
    subst ht
    rw [← hval]
    simp [entryOf, hf, successPayload]

/-- In the executor's result map, anything stored under `report` is the
canned report payload. -/
theorem dataOf_report_entry (fail : Fail) (now : Now) (company market : Str)
    (tools : List String) (hsub : ∀ t ∈ tools, t ∈ knownTools) (v : Json)
    (h : lookupKey (dataOf fail now company market tools) "report" = some v) :
    v = cannedMarketReport company (pyOr market company) now := by
  obtain ⟨t, htm, hkey, hval⟩ := lookupKey_dataOf fail now company market tools _ v h
  have htk := hsub t htm
  cases hf : fail t with
  | some e =>
    simp only [keyOf, hf] at hkey
    subst hkey
    exact absurd htk (by decide)
  | none =>
    simp only [keyOf, hf] at hkey
    have ht : t = "generate_market_report" := by
      fin_cases htk <;> first | rfl | exact absurd hkey (by decide)
    subst ht
    rw [← hval]
    simp [entryOf, hf, successPayload]

/-- Synthesis `generateInsights` succeeds once each of its four sections does. -/
theorem generateInsights_ok_of (r : ResearchResult)
    (h1 : ∃ s, companySection r.data = .ok s)
    (h2 : ∃ s, trendsSection r.data = .ok s)
    (h3 : ∃ s, newsSection r.data = .ok s)
    (h4 : ∃ s, reportSection r.data = .ok s) :
    ∃ s, generateInsights r = .ok s := by
  obtain ⟨s1, e1⟩ := h1
  obtain ⟨s2, e2⟩ := h2
  obtain ⟨s3, e3⟩ := h3
  obtain ⟨s4, e4⟩ := h4
  unfold generateInsights
  dsimp only
  rw [e1, e2, e3, e4]
  exact ⟨_, rfl⟩

/-- Synthesis `generateInsights` never raises on any result map the executor builds
from a duplicate-free plan of known operations. -/
theorem generateInsights_dataOf_ok (fail : Fail) (now : Now)
    (company market q : Str) (ts : String) (tools : List String)
    (hsub : ∀ t ∈ tools, t ∈ knownTools) :
    ∃ s, generateInsights ⟨q, ts, dataOf fail now company market tools⟩ = .ok s := by
  apply generateInsights_ok_of
  · cases h : lookupKey (dataOf fail now company market tools) "company_info" with
    | none => exact ⟨"", companySection_of_none _ h⟩
    | some v =>
      rw [dataOf_company_entry fail now company market tools hsub v h] at h
      exact companySection_of_canned _ company now h
  · cases h : lookupKey (dataOf fail now company market tools) "market_trends" with
    | none => exact ⟨"", trendsSection_of_none _ h⟩
    | some v =>
      rw [dataOf_trends_entry fail now company market tools hsub v h] at h
      exact trendsSection_of_canned _ (pyOr market company) now h
  · cases h : lookupKey (dataOf fail now company market tools) "latest_news" with
    | none => exact ⟨"", newsSection_of_none _ h⟩
    | some v =>
      rw [dataOf_news_entry fail now company market tools hsub v h] at h
      exact newsSection_of_canned _ company now h
  · cases h : lookupKey (dataOf fail now company market tools) "report" with
    | none => exact ⟨"", reportSection_of_none _ h⟩
    | some v =>
      rw [dataOf_report_entry fail now company market tools hsub v h] at h
      exact reportSection_of_canned _ company (pyOr market company) now h

/-- When none of the four section keys is present, `generateInsights`
returns the sectionless summary. -/
theorem generateInsights_no_sections (q : Str) (ts : String)
    (data : List (String × Json))
    (h1 : lookupKey data "company_info" = none)
    (h2 : lookupKey data "market_trends" = none)
    (h3 : lookupKey data "latest_news" = none)
    (h4 : lookupKey data "report" = none) :
    generateInsights ⟨q, ts, data⟩ = .ok insightsNoSections := by
  unfold generateInsights
  dsimp only
  rw [companySection_of_none _ h1, trendsSection_of_none _ h2,
    newsSection_of_none _ h3, reportSection_of_none _ h4]
  rfl

/-- The executor's full result record in closed form. -/
theorem execute_eq (fail : Fail) (now : Now) (plan : Plan) (query : Str)
    (hsub : ∀ t ∈ plan.toolsToUse, t ∈ knownTools)
    (hnd : plan.toolsToUse.Nodup) :
    executeResearchPlan fail now plan query
      = { query := query, timestamp := now.iso,
          data := dataOf fail now (extractCompanyName query)
            (extractMarket query (extractCompanyName query)) plan.toolsToUse } := by
  unfold executeResearchPlan
  dsimp only
  rw [exec_fold fail now _ _ plan.toolsToUse [] hsub hnd (by simp)]
  simp

/-! ## Claim theorems -/

/-- Claim C3 (counterexample): for the query "Research Apple Inc and
generate a market report" the planner does NOT return the two-operation
plan the specification states — the word "market" in the query also
triggers the trends operation. -/
theorem claimC3_cex :
    (simulateAgentPlanning appleQuery).toolsToUse
      ≠ ["search_company_info", "generate_market_report"] := by decide

/-- Claim C3 (amended): for the query "Research Apple Inc and generate a
market report", the Intent Planner returns the plan consisting of exactly
the three operations search_company_info, analyze_market_trends,
generate_market_report, in that order. -/
theorem claimC3 :
    (simulateAgentPlanning appleQuery).toolsToUse
      = ["search_company_info", "analyze_market_trends", "generate_market_report"] := by
  decide

/-- Claim C4 (counterexample): for the query "foo market" nothing follows
the term "market", yet the extractor returns the empty string, not
"(subject) market" (the subject here being the last token, "market"). -/
theorem claimC4_cex :
    extractMarket ("foo market".toList) (extractCompanyName ("foo market".toList)) = [] ∧
    extractMarket ("foo market".toList) (extractCompanyName ("foo market".toList))
      ≠ extractCompanyName ("foo market".toList) ++ " market".toList := by
  constructor <;> decide

/-- Claim C4 (amended): when the literal term "market" is absent from the
query, the extracted scope is "(company) market"; when "market" is present
but the part after its first occurrence (up to the next occurrence) strips
to nothing, the extracted scope is the empty string. -/
theorem claimC4 (q c : Str) :
    (strContains (lowerStr q) ("market".toList) = false →
      extractMarket q c = c ++ " market".toList) ∧
    (strContains (lowerStr q) ("market".toList) = true →
      pyStrip (((pySplitOn ("market".toList) (lowerStr q)).get? 1).getD []) = [] →
      extractMarket q c = []) := by
  constructor
  · intro h
    unfold extractMarket
    dsimp only
    rw [h]
    rfl
  · intro h hstrip
    have hlen : 1 < (pySplitOn ("market".toList) (lowerStr q)).length :=
      one_lt_splitOn_length ("market".toList) (by decide) (lowerStr q) h
    unfold extractMarket
    dsimp only
    rw [if_pos h, if_pos hlen, if_pos (List.isEmpty_iff.mpr hstrip)]

/-- Claim C4 (witness): concrete instances of both amended branches. -/
theorem claimC4_witness :
    (strContains (lowerStr ("hello".toList)) ("market".toList) = false ∧
      extractMarket ("hello".toList) ("hello".toList)
        = "hello".toList ++ " market".toList) ∧
    (strContains (lowerStr ("foo market".toList)) ("market".toList) = true ∧
      pyStrip (((pySplitOn ("market".toList)
          (lowerStr ("foo market".toList))).get? 1).getD []) = [] ∧
      extractMarket ("foo market".toList) ("foo".toList) = []) :=
  ⟨⟨by decide, (claimC4 ("hello".toList) ("hello".toList)).1 (by decide)⟩,
   ⟨by decide, by decide,
    (claimC4 ("foo market".toList) ("foo".toList)).2 (by decide) (by decide)⟩⟩

/-- Claim C5: when the gate verbs are absent, or the gate holds but no
trigger keyword occurs in the query, the planner returns the fixed default
four-operation plan; and the planner never returns an empty plan. -/
theorem claimC5 (q : Str) :
    ((gateHolds (lowerStr q) = false ∨
        ∀ w ∈ allTriggerKeywords, strContains (lowerStr q) w = false) →
      simulateAgentPlanning q = defaultPlan) ∧
    (simulateAgentPlanning q).toolsToUse ≠ [] := by
  constructor
  · intro h
    have hempty : gateTools (lowerStr q) = [] := by
      rcases h with h | h
      · simp [gateTools, h]
      · have hany : ∀ ws : List Str, (∀ w ∈ ws, w ∈ allTriggerKeywords) →
            anyKeywordIn ws (lowerStr q) = false := by
          intro ws hws
          rw [anyKeywordIn, List.any_eq_false]
          intro w hw
          simp [h w (hws w hw)]
        have hc := hany companyKeywords
          (fun w hw => by simp [allTriggerKeywords, List.mem_append]; tauto)
        have hm := hany marketKeywords
          (fun w hw => by simp [allTriggerKeywords, List.mem_append]; tauto)
        have hco := hany competitorKeywords
          (fun w hw => by simp [allTriggerKeywords, List.mem_append]; tauto)
        have hn := hany newsKeywords
          (fun w hw => by simp [allTriggerKeywords, List.mem_append]; tauto)
        have hr := hany reportKeywords
          (fun w hw => by simp [allTriggerKeywords, List.mem_append]; tauto)
        simp [gateTools, hc, hm, hco, hn, hr]
    simp [simulateAgentPlanning, hempty]
  · unfold simulateAgentPlanning
    dsimp only
    split
    · decide
    · next hne =>
      intro hcon
      exact hne (List.isEmpty_iff.mpr hcon)

/-- Claim C5 (witness): the gateless query "asdf" receives the default
plan, which is non-empty. -/
theorem claimC5_witness :
    (gateHolds (lowerStr ("asdf".toList)) = false ∨
      ∀ w ∈ allTriggerKeywords, strContains (lowerStr ("asdf".toList)) w = false) ∧
    simulateAgentPlanning ("asdf".toList) = defaultPlan ∧
    (simulateAgentPlanning ("asdf".toList)).toolsToUse ≠ [] :=
  ⟨Or.inl (by decide),
   (claimC5 ("asdf".toList)).1 (Or.inl (by decide)),
   (claimC5 ("asdf".toList)).2⟩

/-- Claim C6 (counterexample): in "research report apple" the evidence for
generate_market_report ("report", at index 9) occurs before the evidence
for search_company_info ("apple", at index 16), yet the plan lists
search_company_info first — plan order does not reflect the order the
evidence occurs in the query text. -/
theorem claimC6_cex :
    (simulateAgentPlanning ("research report apple".toList)).toolsToUse
      = ["search_company_info", "generate_market_report"] ∧
    pyFind ("research report apple".toList) ("report".toList) = some 9 ∧
    pyFind ("research report apple".toList) ("apple".toList) = some 16 := by
  refine ⟨by decide, by decide, by decide⟩

/-- Claim C6 (amended): for every query, the plan lists operation names in
the planner's fixed table evaluation order (a sublist of the five-name
table order), independent of where their evidence occurs in the query
text. -/
theorem claimC6 (q : Str) :
    (simulateAgentPlanning q).toolsToUse.Sublist knownTools :=
  planner_tools_sublist q

/-- Claim C7 (counterexample): for the concrete scenario query, the
extracted scope is not "Apple market" — "market" occurs in the query, so
the token after it ("report") is taken instead of the fallback. -/
theorem claimC7_cex :
    extractCompanyName appleQuery = "Apple".toList ∧
    extractMarket appleQuery (extractCompanyName appleQuery)
      ≠ "Apple market".toList := by
  constructor <;> decide

/-- Claim C7 (amended): for the query "Research Apple Inc and generate a
market report", the Entity Extractor yields subject "Apple" and scope
"report". -/
theorem claimC7 :
    extractCompanyName appleQuery = "Apple".toList ∧
    extractMarket appleQuery (extractCompanyName appleQuery)
      = "report".toList := by
  constructor <;> decide

/-- Claim C8: for every query string, the plan contains no duplicate
operation names. -/
theorem claimC8 (q : Str) : (simulateAgentPlanning q).toolsToUse.Nodup :=
  planner_tools_nodup q

/-- Claim C1 (counterexample): for the one-operation plan
[search_company_info] with no failures, the result-map key set is
[company_info], not the plan's operation-name set: success payloads are
stored under short payload keys, not operation names. -/
theorem claimC1_cex :
    (executeResearchPlan failNone nowW planOne ("apple".toList)).data.map Prod.fst
      = ["company_info"] ∧
    "search_company_info"
      ∉ (executeResearchPlan failNone nowW planOne ("apple".toList)).data.map Prod.fst := by
  constructor <;> decide

/-- Claim C1 (amended): for every duplicate-free plan over the five
dispatchable operations, any entities and any failure pattern, the
executor's result map holds exactly one entry per plan operation — keyed
by the operation's fixed payload key on success and by the operation name
on failure — no more, no fewer, and each entry fully populated with the
operation's canned payload or its error slot. -/
theorem claimC1 (fail : Fail) (now : Now) (plan : Plan) (q : Str)
    (hsub : ∀ t ∈ plan.toolsToUse, t ∈ knownTools)
    (hnd : plan.toolsToUse.Nodup) :
    ((executeResearchPlan fail now plan q).data.map Prod.fst
        = plan.toolsToUse.map (keyOf fail)) ∧
    (∀ t ∈ plan.toolsToUse,
      lookupKey (executeResearchPlan fail now plan q).data (keyOf fail t)
        = some (entryOf fail now (extractCompanyName q)
            (extractMarket q (extractCompanyName q)) t)) := by
  rw [executeData_eq fail now plan q hsub hnd]
  constructor
  · simp [dataOf]
  · intro t ht
    exact lookupKey_dataOf_self fail now _ _ plan.toolsToUse hsub hnd t ht

/-- Claim C1 (witness): the amended statement instantiated at the
one-operation plan with no failures. -/
theorem claimC1_witness :
    (∀ t ∈ planOne.toolsToUse, t ∈ knownTools) ∧ planOne.toolsToUse.Nodup ∧
    (((executeResearchPlan failNone nowW planOne ("apple".toList)).data.map Prod.fst
        = planOne.toolsToUse.map (keyOf failNone)) ∧
      (∀ t ∈ planOne.toolsToUse,
        lookupKey (executeResearchPlan failNone nowW planOne ("apple".toList)).data
            (keyOf failNone t)
          = some (entryOf failNone nowW (extractCompanyName ("apple".toList))
              (extractMarket ("apple".toList) (extractCompanyName ("apple".toList))) t))) :=
  ⟨by decide, by decide,
   claimC1 failNone nowW planOne ("apple".toList) (by decide) (by decide)⟩

/-- Claim C2 (counterexample): when search_company_info raises, its result
slot is populated with the bare dictionary containing only the key
"error" — it has no "status" field at all, so it is not of the claimed
shape with status = error. -/
theorem claimC2_cex :
    lookupKey (executeResearchPlan failCompany nowW planTwo ("apple".toList)).data
        "search_company_info" = some (errObj "boom") ∧
    (errObj "boom").look "status" = none := by
  constructor
  · rfl
  · rfl

/-- Claim C2 (amended): for every duplicate-free plan of known operations
in which exactly one operation raises, the executor does not abort: the
failing operation's slot is populated with the bare error dictionary
(with no status field), every remaining plan operation still executes and
receives its full canned payload, whose status field is "success". -/
theorem claimC2 (fail : Fail) (now : Now) (plan : Plan) (q : Str)
    (bad msg : String)
    (hsub : ∀ t ∈ plan.toolsToUse, t ∈ knownTools)
    (hnd : plan.toolsToUse.Nodup)
    (hbad : bad ∈ plan.toolsToUse)
    (hmsg : fail bad = some msg)
    (hrest : ∀ t ∈ plan.toolsToUse, t ≠ bad → fail t = none) :
    lookupKey (executeResearchPlan fail now plan q).data bad = some (errObj msg) ∧
    (∀ t ∈ plan.toolsToUse, t ≠ bad →
      lookupKey (executeResearchPlan fail now plan q).data (shortKey t)
        = some (successPayload now (extractCompanyName q)
            (extractMarket q (extractCompanyName q)) t) ∧
      (successPayload now (extractCompanyName q)
          (extractMarket q (extractCompanyName q)) t).look "status"
        = some (.str "success")) ∧
    (executeResearchPlan fail now plan q).data.length = plan.toolsToUse.length := by
  rw [executeData_eq fail now plan q hsub hnd]
  refine ⟨?_, ?_, ?_⟩
  · have hk : keyOf fail bad = bad := by simp [keyOf, hmsg]
    have := lookupKey_dataOf_self fail now (extractCompanyName q)
      (extractMarket q (extractCompanyName q)) plan.toolsToUse hsub hnd bad hbad
    rw [hk] at this
    rw [this]
    simp [entryOf, hmsg]
  · intro t ht htne
    have hfn : fail t = none := hrest t ht htne
    have hk : keyOf fail t = shortKey t := by simp [keyOf, hfn]
    have := lookupKey_dataOf_self fail now (extractCompanyName q)
      (extractMarket q (extractCompanyName q)) plan.toolsToUse hsub hnd t ht
    rw [hk] at this
    refine ⟨by rw [this]; simp [entryOf, hfn], ?_⟩
    have htk := hsub t ht
    fin_cases htk <;> rfl
  · simp [dataOf]

/-- Claim C2 (witness): the amended statement instantiated at the
two-operation plan in which only search_company_info raises. -/
theorem claimC2_witness :
    (∀ t ∈ planTwo.toolsToUse, t ∈ knownTools) ∧ planTwo.toolsToUse.Nodup ∧
    "search_company_info" ∈ planTwo.toolsToUse ∧
    failCompany "search_company_info" = some "boom" ∧
    (∀ t ∈ planTwo.toolsToUse, t ≠ "search_company_info" → failCompany t = none) ∧
    (lookupKey (executeResearchPlan failCompany nowW planTwo ("apple".toList)).data
        "search_company_info" = some (errObj "boom") ∧
      (∀ t ∈ planTwo.toolsToUse, t ≠ "search_company_info" →
        lookupKey (executeResearchPlan failCompany nowW planTwo ("apple".toList)).data
            (shortKey t)
          = some (successPayload nowW (extractCompanyName ("apple".toList))
              (extractMarket ("apple".toList) (extractCompanyName ("apple".toList))) t) ∧
        (successPayload nowW (extractCompanyName ("apple".toList))
            (extractMarket ("apple".toList) (extractCompanyName ("apple".toList))) t).look
            "status"
          = some (.str "success")) ∧
      (executeResearchPlan failCompany nowW planTwo ("apple".toList)).data.length
        = planTwo.toolsToUse.length) :=
  ⟨by decide, by decide, by decide, by decide, by decide,
   claimC2 failCompany nowW planTwo ("apple".toList) "search_company_info" "boom"
     (by decide) (by decide) (by decide) (by decide) (by decide)⟩

/-- Claim C9: for every query and every failure pattern, the top-level
research call never raises to its caller: the pipeline body always
completes with a report, and research returns exactly that report (the
catch-all error branch is never taken). -/
theorem claimC9 (fail : Fail) (now : Now) (q : Str) :
    ∃ r, researchBody fail now q = .ok r ∧ research fail now q = r := by
  have hexec := execute_eq fail now (simulateAgentPlanning q) q
    (planner_tools_subset q) (planner_tools_nodup q)
  obtain ⟨s, hs⟩ := generateInsights_dataOf_ok fail now (extractCompanyName q)
    (extractMarket q (extractCompanyName q)) q now.iso
    (simulateAgentPlanning q).toolsToUse (planner_tools_subset q)
  have hbody : ∃ r, researchBody fail now q = .ok r := by
    unfold researchBody
    dsimp only
    rw [hexec, hs]
    exact ⟨_, rfl⟩
  obtain ⟨r, hr⟩ := hbody
  refine ⟨r, hr, ?_⟩
  unfold research
  rw [hr]

/-- Claim C10: for every Research Result all of whose entries are error
slots (keyed, as the executor keys them, by operation names), synthesis
never raises and returns the summary with every payload-derived section
omitted. -/
theorem claimC10 (q : Str) (ts : String) (data : List (String × Json))
    (h : ∀ kv ∈ data, kv.1 ∈ knownTools ∧ ∃ msg, kv.2 = errObj msg) :
    generateInsights ⟨q, ts, data⟩ = .ok insightsNoSections := by
  have hnone : ∀ k : String, k ∉ knownTools → lookupKey data k = none := by
    intro k hk
    apply lookupKey_none
    intro kv hkv heq
    exact hk (heq ▸ (h kv hkv).1)
  exact generateInsights_no_sections q ts data
    (hnone _ sectionKeys_not_tools.1) (hnone _ sectionKeys_not_tools.2.1)
    (hnone _ sectionKeys_not_tools.2.2.1) (hnone _ sectionKeys_not_tools.2.2.2)

/-- Claim C10 (witness): a result map holding a single error entry yields
the sectionless summary. -/
theorem claimC10_witness :
    (∀ kv ∈ [("search_company_info", errObj "x")],
      kv.1 ∈ knownTools ∧ ∃ msg, kv.2 = errObj msg) ∧
    generateInsights ⟨"apple".toList, "T", [("search_company_info", errObj "x")]⟩
      = .ok insightsNoSections :=
  ⟨by
    intro kv hkv
    simp only [List.mem_singleton] at hkv
    subst hkv
    exact ⟨by decide, "x", rfl⟩,
   claimC10 ("apple".toList) "T" [("search_company_info", errObj "x")] (by
    intro kv hkv
    simp only [List.mem_singleton] at hkv
    subst hkv
    exact ⟨by decide, "x", rfl⟩)⟩

end MarketResearch
